import Mathlib

/-!
# Tasker XML to tool descriptors

A verification development for `src/utils/xml-to-tools.js`.

The program reads a Tasker XML export, parses it with `xml2js`
(`explicitArray: false`) and turns every task that carries a description
(`pc`) into a tool descriptor with a derived name and an input schema built
from the task's profile variables.

Modelling conventions.

* The embedding starts at the parsed tree (`result`); reading the file and the
  XML parser are outside of it.
* A member of a parsed node is a `JsValue`: absent (`undefined`), a native
  boolean, a string, or something else (a nested element or an array).  Only
  the operations the program applies to such members are modelled: truthiness,
  `===` against string and boolean constants, `||`, and the string methods
  `toLowerCase`, `replace`, `trim`, `startsWith`, `slice`.
* A JavaScript `TypeError` (member read on `undefined`, call of a string method
  on a value that has none) is the result `none`.  `convertXmlToJsonTools`
  catches every exception and returns `null`, which is `none` as well.
* Strings are Lean strings (sequences of Unicode scalar values).
  `toLowerCase` is modelled on the ASCII letters; other characters are kept.
* The `properties` object of a schema is a finite map from string keys to
  entries, kept as an association list in insertion order (assignment to an
  existing key keeps its position).  The accessor key `__proto__` of
  JavaScript objects is not modelled.
* `JSON.stringify` of the descriptor list is not modelled: the list itself is
  the result.
-/

namespace XmlToTools

/-! ## JavaScript values and strings -/

/-- A value found under a member name of a parsed XML node. -/
inductive JsValue where
  /-- The member is missing. -/
  | undefined
  /-- A native boolean. -/
  | boolean (b : Bool)
  /-- A string: the text of an element or of an attribute. -/
  | string (s : String)
  /-- Any other value, a nested element or an array of repeated elements; it is
  truthy and has no string method.  `text` is the text a template literal
  converts it to. -/
  | object (text : String)
  deriving DecidableEq, Repr

/-- JavaScript truthiness (`if (v)`, `!v`, `v ? a : b`). -/
def JsValue.truthy : JsValue → Bool
  | .undefined => false
  | .boolean b => b
  | .string s => decide (s ≠ "")
  | .object _ => true

/-- The operator `a || b`. -/
def JsValue.or (a b : JsValue) : JsValue :=
  if a.truthy then a else b

/-- Conversion to a string inside a template literal. -/
def JsValue.toText : JsValue → String
  | .undefined => "undefined"
  | .boolean true => "true"
  | .boolean false => "false"
  | .string s => s
  | .object text => text

/-- The test `v === "true" || v === true`. -/
def JsValue.isTrueFlag (v : JsValue) : Bool :=
  decide (v = .string "true") || decide (v = .boolean true)

/-- The test `v === "false" || v === false`. -/
def JsValue.isFalseFlag (v : JsValue) : Bool :=
  decide (v = .string "false") || decide (v = .boolean false)

/-- The method `String.prototype.toLowerCase`, on ASCII letters. -/
def toLowerCase (s : String) : String :=
  ⟨s.data.map Char.toLower⟩

/-- The call `s.replace(/ /g, "_")`: every space becomes an underscore. -/
def replaceSpaces (s : String) : String :=
  ⟨s.data.map (fun c => if c = ' ' then '_' else c)⟩

/-- The method `String.prototype.startsWith`. -/
def startsWith (s pat : String) : Bool :=
  pat.data.isPrefixOf s.data

/-- The call `s.replace(/^pat/, rep)` for a literal `pat` and a replacement text
without `$`: a leading occurrence of `pat` is replaced by `rep`, and a string
that does not start with `pat` is returned unchanged. -/
def replaceLeading (pat rep s : String) : String :=
  if startsWith s pat then ⟨rep.data ++ s.data.drop pat.data.length⟩ else s

/-- The call `s.slice(1)`: the string without its first character. -/
def sliceFrom1 (s : String) : String :=
  ⟨s.data.drop 1⟩

/-- White space and line terminators of ECMAScript, the characters `trim`
removes. -/
def isJsWhiteSpace (c : Char) : Bool :=
  let n := c.toNat
  n = 0x09 || n = 0x0A || n = 0x0B || n = 0x0C || n = 0x0D || n = 0x20 ||
  n = 0xA0 || n = 0x1680 || (0x2000 ≤ n && n ≤ 0x200A) || n = 0x2028 ||
  n = 0x2029 || n = 0x202F || n = 0x205F || n = 0x3000 || n = 0xFEFF

/-- The method `String.prototype.trim`. -/
def trim (s : String) : String :=
  ⟨((s.data.dropWhile isJsWhiteSpace).reverse.dropWhile isJsWhiteSpace).reverse⟩

/-! ## The parsed tree -/

/-- What `xml2js` with `explicitArray: false` stores for a child element name:
nothing (`undefined`) when the element does not occur, the element itself when
it occurs once, an array when it repeats.  An element that occurs once and is
empty is stored as the empty string: for `ProfileVariable` the program treats
it like a missing member (`!profileVars`), so it is `absent` there; for `Task`
it is a `single` task without members. -/
inductive JsCollection (α : Type) where
  | absent
  | single (x : α)
  | list (xs : List α)
  deriving DecidableEq, Repr

/-- A `ProfileVariable` element, by the members the program reads. -/
structure Variable where
  pvci : JsValue := .undefined
  immutable : JsValue := .undefined
  pvv : JsValue := .undefined
  pvn : JsValue := .undefined
  pvd : JsValue := .undefined
  pvt : JsValue := .undefined
  clearout : JsValue := .undefined
  deriving DecidableEq, Repr

/-- A `Task` element, by the members the program reads. -/
structure Task where
  nme : JsValue := .undefined
  pc : JsValue := .undefined
  ProfileVariable : JsCollection Variable := .absent
  deriving DecidableEq, Repr

/-- The parsed document `result`: `TaskerData` is `none` when `result` has no
`TaskerData` member, and otherwise holds the value of `result.TaskerData.Task`. -/
structure ParsedDocument where
  TaskerData : Option (JsCollection Task)
  deriving DecidableEq, Repr

/-! ## Output -/

/-- An entry of `schema.properties`. -/
structure PropertyEntry where
  type : String
  description : Option JsValue := none
  enum : Option (List String) := none
  deriving DecidableEq, Repr

/-- The object `schema.properties`. -/
abbrev Properties := List (String × PropertyEntry)

/-- The assignment `properties[key] = entry`. -/
def Properties.assign : Properties → String → PropertyEntry → Properties
  | [], key, entry => [(key, entry)]
  | (k, e) :: rest, key, entry =>
    if k = key then (k, entry) :: rest
    else (k, e) :: Properties.assign rest key entry

/-- An in-place change `properties[key].field = value` of the entry under
`key`. -/
def Properties.modify : Properties → String → (PropertyEntry → PropertyEntry) → Properties
  | [], _, _ => []
  | (k, e) :: rest, key, f =>
    if k = key then (k, f e) :: rest
    else (k, e) :: Properties.modify rest key f

/-- The read `properties[key]`. -/
def Properties.get? : Properties → String → Option PropertyEntry
  | [], _ => none
  | (k, e) :: rest, key => if k = key then some e else Properties.get? rest key

/-- The object `schema`. -/
structure InputSchema where
  type : String := "object"
  properties : Properties := []
  required : Option (List String) := none
  deriving DecidableEq, Repr

/-- The object pushed on `tools` for one task. -/
structure ToolDescriptor where
  tasker_name : JsValue
  name : String
  description : JsValue
  inputSchema : InputSchema
  deriving DecidableEq, Repr

/-! ## The program -/

/-- The chain `toLowerCase().replace(/ /g, "_").replace(/^mcp_/, "tasker_")
.replace(/^mcp/, "tasker")` of `taskNameToToolName`, on a string. -/
def toolNameOfString (s : String) : String :=
  replaceLeading "mcp" "tasker"
    (replaceLeading "mcp_" "tasker_" (replaceSpaces (toLowerCase s)))

/-- The function `taskNameToToolName`; `none` when `taskName.toLowerCase` is not
callable. -/
def taskNameToToolName (taskName : JsValue) : Option String :=
  match taskName with
  | .string s => some (toolNameOfString s)
  | _ => none

/-- The function `generateDescription`. -/
def generateDescription (task : Task) : JsValue :=
  if task.pc.truthy then task.pc else .string ("Tasker Tool: " ++ task.nme.toText)

/-- The condition of the `if` in the `forEach` callback of `extractInputSchema`;
`none` when `pvv.trim` is not callable. -/
def includeTest (pvar : Variable) : Option Bool :=
  if pvar.pvci.isFalseFlag && pvar.immutable.isTrueFlag then
    if !pvar.pvv.truthy then some true
    else
      match pvar.pvv with
      | .string s => some (decide (trim s = ""))
      | _ => none
  else some false

/-- The property key: `variable.pvn || ""` without a leading `%`; `none` when
`key.startsWith` is not callable. -/
def propertyKey (pvar : Variable) : Option String :=
  match pvar.pvn.or (.string "") with
  | .string key => some (if startsWith key "%" then sliceFrom1 key else key)
  | _ => none

/-- The pair `(type, enumVals)` inferred from `pvt`. -/
def inferType (pvt : JsValue) : String × Option (List String) :=
  if pvt = .string "onoff" then ("string", some ["on", "off"])
  else if pvt = .string "n" then ("number", none)
  else ("string", none)

/-- The mutable state of the `forEach` in `extractInputSchema`. -/
structure SchemaState where
  properties : Properties := []
  required : List String := []
  deriving DecidableEq, Repr

/-- The body of the `forEach` callback for a variable that passed the test and
whose key is `key`. -/
def addProperty (st : SchemaState) (pvar : Variable) (key : String) : SchemaState :=
  let desc := pvar.pvd.or (.string "")
  let inferred := inferType pvar.pvt
  let p1 := st.properties.assign key { type := inferred.1 }
  let p2 := if desc.truthy then p1.modify key (fun e => { e with description := some desc }) else p1
  let p3 :=
    match inferred.2 with
    | some enumVals => p2.modify key (fun e => { e with enum := some enumVals })
    | none => p2
  let required :=
    if pvar.clearout.isTrueFlag then st.required ++ [key] else st.required
  { properties := p3, required := required }

/-- One call of the `forEach` callback. -/
def visitVariable (st : SchemaState) (pvar : Variable) : Option SchemaState :=
  match includeTest pvar with
  | none => none
  | some false => some st
  | some true =>
    match propertyKey pvar with
    | none => none
    | some key => some (addProperty st pvar key)

/-- The loop `profileVars.forEach(...)`. -/
def forEachVariable : List Variable → SchemaState → Option SchemaState
  | [], st => some st
  | pvar :: rest, st =>
    match visitVariable st pvar with
    | none => none
    | some st1 => forEachVariable rest st1

/-- The end of `extractInputSchema`: `required` is attached when it is not
empty. -/
def finishSchema (st : SchemaState) : InputSchema :=
  { properties := st.properties
    required := if st.required.length > 0 then some st.required else none }

/-- The function `extractInputSchema`. -/
def extractInputSchema (task : Task) : Option InputSchema :=
  match task.ProfileVariable with
  | .absent => some {}
  | .single pvar => (forEachVariable [pvar] {}).map finishSchema
  | .list pvars => (forEachVariable pvars {}).map finishSchema

/-- The object literal `toolDescription` built for a task that has a
description; `none` when one of the derivations throws. -/
def toolDescription (task : Task) : Option ToolDescriptor :=
  match taskNameToToolName task.nme with
  | none => none
  | some name =>
    match extractInputSchema task with
    | none => none
    | some schema =>
      some { tasker_name := task.nme, name := name,
             description := generateDescription task, inputSchema := schema }

/-- The loop `for (const task of tasks)`; an element `none` is the value
`undefined`, whose member `nme` cannot be read. -/
def taskLoop : List (Option Task) → List ToolDescriptor → Option (List ToolDescriptor)
  | [], tools => some tools
  | none :: _, _ => none
  | some task :: rest, tools =>
    if !task.pc.truthy then taskLoop rest tools
    else
      match toolDescription task with
      | none => none
      | some descriptor => taskLoop rest (tools ++ [descriptor])

/-- The normalisation `if (!Array.isArray(tasks)) tasks = [tasks]`. -/
def normalizeTasks : JsCollection Task → List (Option Task)
  | .absent => [none]
  | .single task => [some task]
  | .list tasks => tasks.map some

/-- The function `convertXmlToJsonTools` after parsing: the list `tools`, or
`none` for the result `null` of the `catch` block. -/
def convertXmlToJsonTools (result : ParsedDocument) : Option (List ToolDescriptor) :=
  match result.TaskerData with
  | none => none
  | some tasks => taskLoop (normalizeTasks tasks) []

/-! ## Definitions used to state the properties -/

/-- The tool name in the words of the specification: with `t` the lower-cased
name with underscores for spaces, `tasker_` and the rest after a leading
`mcp_`; else `tasker` and the rest after a leading `mcp`; else `t`. -/
def toolNameSpec (s : String) : String :=
  let t := replaceSpaces (toLowerCase s)
  if startsWith t "mcp_" then ⟨"tasker_".data ++ t.data.drop 4⟩
  else if startsWith t "mcp" then ⟨"tasker".data ++ t.data.drop 3⟩
  else t

/-- The variables of a task as a sequence: none when the collection is absent,
one for a single element, the array otherwise. -/
def profileVariables (task : Task) : List Variable :=
  match task.ProfileVariable with
  | .absent => []
  | .single pvar => [pvar]
  | .list pvars => pvars

/-- A member that is a string or missing, the two forms the data model of the
specification gives to a text field. -/
def JsValue.isTextOrAbsent : JsValue → Bool
  | .undefined => true
  | .string _ => true
  | _ => false

/-- A variable whose current value and name are strings or missing. -/
def Variable.wellTyped (pvar : Variable) : Bool :=
  pvar.pvv.isTextOrAbsent && pvar.pvn.isTextOrAbsent

/-- A task whose name is a string and whose variables are well typed. -/
def Task.wellTyped (task : Task) : Bool :=
  (match task.nme with
    | .string _ => true
    | _ => false) &&
  (profileVariables task).all Variable.wellTyped

/-- The inclusion test in the words of the specification: the change-immune
flag is false, the immutable flag is true, and the current value is absent or
empty after trimming. -/
def Variable.qualifies (pvar : Variable) : Bool :=
  pvar.pvci.isFalseFlag && pvar.immutable.isTrueFlag &&
  (match pvar.pvv with
    | .undefined => true
    | .string s => decide (trim s = "")
    | _ => false)

/-- The key in the words of the specification: the name without one leading
`%`, the empty string for an absent name. -/
def Variable.derivedKey (pvar : Variable) : String :=
  match pvar.pvn with
  | .string s =>
    match s.data with
    | c :: rest => if c = '%' then ⟨rest⟩ else s
    | [] => s
  | _ => ""

/-- The entry a qualifying variable leaves under its key. -/
def Variable.entry (pvar : Variable) : PropertyEntry :=
  { type := (inferType pvar.pvt).1
    description := if pvar.pvd.truthy then some pvar.pvd else none
    enum := (inferType pvar.pvt).2 }

/-- One call of the callback on a well typed variable. -/
def visitTyped (st : SchemaState) (pvar : Variable) : SchemaState :=
  if pvar.qualifies then
    { properties := st.properties.assign pvar.derivedKey pvar.entry
      required :=
        if pvar.clearout.isTrueFlag then st.required ++ [pvar.derivedKey] else st.required }
  else st

/-- A sample task with three qualifying variables, two of them required. -/
def sampleTaskRequired : Task :=
  { nme := .string "Set Volume", pc := .string "Sets the volume"
    ProfileVariable := .list
      [{ pvci := .string "false", immutable := .string "true", pvn := .string "%Volume",
         pvt := .string "n", clearout := .string "true" },
       { pvci := .string "false", immutable := .string "true", pvn := .string "%Stream",
         clearout := .string "false" },
       { pvci := .boolean false, immutable := .boolean true, pvv := .string "",
         pvn := .string "%Mode", pvt := .string "onoff", clearout := .boolean true }] }

/-- A sample task whose variables all fail the inclusion test. -/
def sampleTaskNoneIncluded : Task :=
  { nme := .string "Set Volume", pc := .string "Sets the volume"
    ProfileVariable := .list
      [{ pvci := .string "false", immutable := .string "true", pvv := .string "5",
         pvn := .string "%Volume", clearout := .string "true" },
       { pvci := .string "true", immutable := .string "true", pvn := .string "%Stream" },
       { pvci := .string "false", pvn := .string "%Mode" }] }

/-- A sample task with two qualifying variables of the same key, the first
required and the second not. -/
def sampleTaskCollision : Task :=
  { nme := .string "Set Mode", pc := .string "Sets the mode"
    ProfileVariable := .list
      [{ pvci := .string "false", immutable := .string "true", pvn := .string "%Mode",
         pvd := .string "The mode", pvt := .string "onoff", clearout := .string "true" },
       { pvci := .string "false", immutable := .string "true", pvn := .string "Mode",
         pvt := .string "n", clearout := .string "false" }] }

/-- A sample task with two qualifying variables of the same key, both
required. -/
def sampleTaskBothRequired : Task :=
  { nme := .string "Set Mode", pc := .string "Sets the mode"
    ProfileVariable := .list
      [{ pvci := .string "false", immutable := .string "true", pvn := .string "%Mode",
         pvt := .string "onoff", clearout := .string "true" },
       { pvci := .string "false", immutable := .string "true", pvn := .string "Mode",
         pvt := .string "n", clearout := .boolean true }] }

/-- Two values of a flag that are equal or are the string form and the native
boolean of the same truth value. -/
def JsValue.sameFlag (a b : JsValue) : Bool :=
  decide (a = b) ||
  (decide (a = .string "true") && decide (b = .boolean true)) ||
  (decide (a = .boolean true) && decide (b = .string "true")) ||
  (decide (a = .string "false") && decide (b = .boolean false)) ||
  (decide (a = .boolean false) && decide (b = .string "false"))

/-- Two variables that differ at most in the form, string or native boolean,
of the flags `pvci`, `immutable` and `clearout`. -/
def Variable.sameUpToFlagForm (v w : Variable) : Bool :=
  v.pvci.sameFlag w.pvci && v.immutable.sameFlag w.immutable &&
  v.clearout.sameFlag w.clearout &&
  decide (v.pvv = w.pvv) && decide (v.pvn = w.pvn) && decide (v.pvd = w.pvd) &&
  decide (v.pvt = w.pvt)

/-- Two variable sequences that agree position by position up to the form of
the flags. -/
def sameVariablesUpToFlagForm : List Variable → List Variable → Bool
  | [], [] => true
  | v :: vs, w :: ws => v.sameUpToFlagForm w && sameVariablesUpToFlagForm vs ws
  | _, _ => false

/-- Two tasks whose variable collections have the same shape and agree up to
the form of the flags. -/
def Task.sameUpToFlagForm (t u : Task) : Bool :=
  match t.ProfileVariable, u.ProfileVariable with
  | .absent, .absent => true
  | .single v, .single w => v.sameUpToFlagForm w
  | .list vs, .list ws => sameVariablesUpToFlagForm vs ws
  | _, _ => false

/-- The descriptor of `sampleTaskRequired`. -/
def sampleDescriptor : ToolDescriptor :=
  { tasker_name := .string "Set Volume", name := "set_volume"
    description := .string "Sets the volume"
    inputSchema :=
      { properties := [("Volume", { type := "number" }), ("Stream", { type := "string" }),
                       ("Mode", { type := "string", enum := some ["on", "off"] })]
        required := some ["Volume", "Mode"] } }

/-! ## Lemmas on the properties object -/

theorem Properties.modify_assign (p : Properties) (k : String) (e : PropertyEntry)
    (f : PropertyEntry → PropertyEntry) :
    (p.assign k e).modify k f = p.assign k (f e) := by
  induction p with
  | nil => simp [Properties.assign, Properties.modify]
  | cons hd tl ih =>
    obtain ⟨k1, e1⟩ := hd
    by_cases h : k1 = k
    · simp [Properties.assign, Properties.modify, h]
    · simp only [Properties.assign, if_neg h, Properties.modify]
      rw [ih]

theorem addProperty_eq (st : SchemaState) (pvar : Variable) (key : String) :
    addProperty st pvar key =
      { properties := st.properties.assign key pvar.entry
        required :=
          if pvar.clearout.isTrueFlag then st.required ++ [key] else st.required } := by
  have hor : (pvar.pvd.or (.string "")).truthy = pvar.pvd.truthy := by
    unfold JsValue.or
    by_cases h : pvar.pvd.truthy = true
    · simp [h]
    · rw [if_neg h]
      have h1 : pvar.pvd.truthy = false := by simpa using h
      rw [h1]
      decide
  have hor2 : pvar.pvd.truthy = true → pvar.pvd.or (.string "") = pvar.pvd := by
    intro h; simp [JsValue.or, h]
  unfold addProperty Variable.entry
  simp only [hor]
  by_cases h : pvar.pvd.truthy = true
  · simp only [h, if_true, hor2 h]
    cases h2 : (inferType pvar.pvt).2 <;> simp [Properties.modify_assign]
  · simp only [h]
    cases h2 : (inferType pvar.pvt).2 <;> simp [Properties.modify_assign]

theorem includeTest_typed (pvar : Variable) (h : pvar.pvv.isTextOrAbsent = true) :
    includeTest pvar = some pvar.qualifies := by
  unfold includeTest Variable.qualifies
  cases hv : pvar.pvv with
  | undefined =>
    cases pvar.pvci.isFalseFlag <;> cases pvar.immutable.isTrueFlag <;> simp [JsValue.truthy]
  | boolean b => simp [hv, JsValue.isTextOrAbsent] at h
  | string s =>
    by_cases hs : s = ""
    · subst hs
      have : trim "" = "" := by decide
      cases pvar.pvci.isFalseFlag <;> cases pvar.immutable.isTrueFlag <;>
        simp [JsValue.truthy, this]
    · cases pvar.pvci.isFalseFlag <;> cases pvar.immutable.isTrueFlag <;>
        simp [JsValue.truthy, hs]
  | object t => simp [hv, JsValue.isTextOrAbsent] at h

theorem propertyKey_typed (pvar : Variable) (h : pvar.pvn.isTextOrAbsent = true) :
    propertyKey pvar = some pvar.derivedKey := by
  unfold propertyKey Variable.derivedKey
  cases hv : pvar.pvn with
  | undefined => simp [JsValue.or, JsValue.truthy, startsWith]
  | boolean b => simp [hv, JsValue.isTextOrAbsent] at h
  | string s =>
    by_cases hs : s = ""
    · subst hs
      simp [JsValue.or, JsValue.truthy]; decide
    · simp only [JsValue.or, JsValue.truthy, hs, ne_eq, not_false_eq_true, decide_True, if_true]
      unfold startsWith sliceFrom1
      cases hd : s.data with
      | nil => simp [List.isPrefixOf]
      | cons c rest =>
        by_cases hc : c = '%'
        · subst hc; simp [List.isPrefixOf]
        · simp [List.isPrefixOf, hc]
          intro h1
          exact absurd h1.symm hc
  | object t => simp [hv, JsValue.isTextOrAbsent] at h

theorem visitVariable_typed (st : SchemaState) (pvar : Variable)
    (h : pvar.wellTyped = true) :
    visitVariable st pvar = some (visitTyped st pvar) := by
  unfold Variable.wellTyped at h
  simp only [Bool.and_eq_true] at h
  unfold visitVariable visitTyped
  rw [includeTest_typed pvar h.1, propertyKey_typed pvar h.2]
  cases pvar.qualifies <;> simp [addProperty_eq]

theorem forEachVariable_typed (pvars : List Variable) (st : SchemaState)
    (h : ∀ pvar ∈ pvars, pvar.wellTyped = true) :
    forEachVariable pvars st = some (pvars.foldl visitTyped st) := by
  induction pvars generalizing st with
  | nil => rfl
  | cons hd tl ih =>
    simp only [forEachVariable, List.foldl_cons]
    rw [visitVariable_typed st hd (h hd (List.mem_cons_self _ _))]
    exact ih _ (fun pvar hp => h pvar (List.mem_cons_of_mem _ hp))

theorem required_foldl_visitTyped (pvars : List Variable) (st : SchemaState) :
    (pvars.foldl visitTyped st).required =
      st.required ++
        (pvars.filter (fun pvar => pvar.qualifies && pvar.clearout.isTrueFlag)).map
          Variable.derivedKey := by
  induction pvars generalizing st with
  | nil => simp
  | cons hd tl ih =>
    rw [List.foldl_cons, ih]
    unfold visitTyped
    cases hq : hd.qualifies <;> cases hc : hd.clearout.isTrueFlag <;>
      simp [List.filter_cons, hq, hc]

theorem extractInputSchema_eq (task : Task) :
    extractInputSchema task =
      (forEachVariable (profileVariables task) {}).map finishSchema := by
  unfold extractInputSchema profileVariables
  cases task.ProfileVariable <;> rfl

theorem extractInputSchema_typed (task : Task)
    (h : ∀ pvar ∈ profileVariables task, pvar.wellTyped = true) :
    extractInputSchema task =
      some (finishSchema ((profileVariables task).foldl visitTyped {})) := by
  rw [extractInputSchema_eq, forEachVariable_typed _ _ h]
  rfl

theorem forEachVariable_none_included (pvars : List Variable) (st : SchemaState)
    (h : ∀ pvar ∈ pvars, includeTest pvar = some false) :
    forEachVariable pvars st = some st := by
  induction pvars with
  | nil => rfl
  | cons hd tl ih =>
    simp only [forEachVariable, visitVariable, h hd (List.mem_cons_self _ _)]
    exact ih (fun pvar hp => h pvar (List.mem_cons_of_mem _ hp))

theorem filter_included_typed (pvars : List Variable) (c : Variable → Bool)
    (h : ∀ pvar ∈ pvars, pvar.wellTyped = true) :
    pvars.filter (fun pvar => decide (includeTest pvar = some true) && c pvar) =
      pvars.filter (fun pvar => pvar.qualifies && c pvar) := by
  apply List.filter_congr
  intro pvar hp
  have h1 := h pvar hp
  unfold Variable.wellTyped at h1
  simp only [Bool.and_eq_true] at h1
  rw [includeTest_typed pvar h1.1]
  simp

theorem filterMap_propertyKey_typed (pvars : List Variable)
    (h : ∀ pvar ∈ pvars, pvar.wellTyped = true) :
    pvars.filterMap propertyKey = pvars.map Variable.derivedKey := by
  induction pvars with
  | nil => rfl
  | cons hd tl ih =>
    have h1 := h hd (List.mem_cons_self _ _)
    unfold Variable.wellTyped at h1
    simp only [Bool.and_eq_true] at h1
    rw [List.filterMap_cons, propertyKey_typed hd h1.2, List.map_cons,
      ih (fun pvar hp => h pvar (List.mem_cons_of_mem _ hp))]

theorem toolDescription_typed (task : Task) (h : task.wellTyped = true) :
    ∃ descriptor, toolDescription task = some descriptor := by
  unfold Task.wellTyped at h
  simp only [Bool.and_eq_true, List.all_eq_true] at h
  obtain ⟨hn, hv⟩ := h
  unfold toolDescription
  rw [extractInputSchema_typed task hv]
  cases hnme : task.nme with
  | string s => simp [taskNameToToolName]
  | undefined => simp [hnme] at hn
  | boolean b => simp [hnme] at hn
  | object t => simp [hnme] at hn

theorem toolDescription_fields (task : Task) (descriptor : ToolDescriptor)
    (h : toolDescription task = some descriptor) :
    descriptor.tasker_name = task.nme ∧
    taskNameToToolName task.nme = some descriptor.name ∧
    descriptor.description = generateDescription task ∧
    extractInputSchema task = some descriptor.inputSchema := by
  unfold toolDescription at h
  cases hn : taskNameToToolName task.nme with
  | none => simp [hn] at h
  | some name =>
    cases hs : extractInputSchema task with
    | none => simp [hn, hs] at h
    | some schema =>
      simp only [hn, hs, Option.some.injEq] at h
      subst h
      simp

theorem taskLoop_described (tasks : List Task) (tools : List ToolDescriptor)
    (h : ∀ task ∈ tasks, task.pc.truthy = true →
      ∃ descriptor, toolDescription task = some descriptor) :
    ∃ added, taskLoop (tasks.map some) tools = some (tools ++ added) ∧
      List.Forall₂ (fun task descriptor => toolDescription task = some descriptor)
        (tasks.filter (fun task => task.pc.truthy)) added := by
  induction tasks generalizing tools with
  | nil => exact ⟨[], by simp [taskLoop], List.Forall₂.nil⟩
  | cons hd tl ih =>
    have htl : ∀ task ∈ tl, task.pc.truthy = true →
        ∃ descriptor, toolDescription task = some descriptor :=
      fun task ht => h task (List.mem_cons_of_mem _ ht)
    by_cases hp : hd.pc.truthy = true
    · obtain ⟨d, hd1⟩ := h hd (List.mem_cons_self _ _) hp
      obtain ⟨added, h1, h2⟩ := ih (tools ++ [d]) htl
      refine ⟨d :: added, ?_, ?_⟩
      · simp only [List.map_cons, taskLoop, hp, Bool.not_true, hd1]
        simpa using h1
      · simp only [List.filter_cons, hp, if_true]
        exact List.Forall₂.cons hd1 h2
    · obtain ⟨added, h1, h2⟩ := ih tools htl
      refine ⟨added, ?_, ?_⟩
      · simp only [List.map_cons, taskLoop, hp]
        simpa using h1
      · simp only [List.filter_cons, hp]
        simpa using h2

theorem taskLoop_result (tasks : List (Option Task)) (tools out : List ToolDescriptor)
    (h : taskLoop tasks tools = some out) :
    ∃ added, out = tools ++ added ∧
      List.Forall₂ (fun task descriptor => toolDescription task = some descriptor)
        ((tasks.filterMap id).filter (fun task => task.pc.truthy)) added := by
  induction tasks generalizing tools with
  | nil =>
    refine ⟨[], ?_, List.Forall₂.nil⟩
    simp only [taskLoop, Option.some.injEq] at h
    simp [h]
  | cons hd tl ih =>
    cases hd with
    | none => simp [taskLoop] at h
    | some task =>
      by_cases hp : task.pc.truthy = true
      · cases hd1 : toolDescription task with
        | none => simp [taskLoop, hp, hd1] at h
        | some d =>
          simp only [taskLoop, hp, Bool.not_true, hd1] at h
          obtain ⟨added, h1, h2⟩ := ih (tools ++ [d]) (by simpa using h)
          refine ⟨d :: added, by simp [h1], ?_⟩
          simp only [List.filterMap_cons, id, List.filter_cons, hp, if_true]
          exact List.Forall₂.cons hd1 h2
      · simp only [taskLoop, hp] at h
        obtain ⟨added, h1, h2⟩ := ih tools (by simpa using h)
        refine ⟨added, h1, ?_⟩
        simp only [List.filterMap_cons, id, List.filter_cons, hp]
        simpa using h2

theorem JsValue.sameFlag_tests (a b : JsValue) (h : a.sameFlag b = true) :
    a.isTrueFlag = b.isTrueFlag ∧ a.isFalseFlag = b.isFalseFlag := by
  unfold JsValue.sameFlag at h
  simp only [Bool.or_eq_true, Bool.and_eq_true, decide_eq_true_eq] at h
  rcases h with (((h | ⟨h1, h2⟩) | ⟨h1, h2⟩) | ⟨h1, h2⟩) | ⟨h1, h2⟩
  · subst h
    exact ⟨rfl, rfl⟩
  all_goals
    subst h1 h2
    exact ⟨by decide, by decide⟩

theorem visitVariable_sameUpToFlagForm (st : SchemaState) (v w : Variable)
    (h : v.sameUpToFlagForm w = true) :
    visitVariable st v = visitVariable st w := by
  unfold Variable.sameUpToFlagForm at h
  simp only [Bool.and_eq_true, decide_eq_true_eq] at h
  obtain ⟨⟨⟨⟨⟨⟨h1, h2⟩, h3⟩, h4⟩, h5⟩, h6⟩, h7⟩ := h
  have t1 := JsValue.sameFlag_tests _ _ h1
  have t2 := JsValue.sameFlag_tests _ _ h2
  have t3 := JsValue.sameFlag_tests _ _ h3
  have hi : includeTest v = includeTest w := by
    unfold includeTest
    rw [t1.2, t2.1, h4]
  have hk : propertyKey v = propertyKey w := by
    unfold propertyKey
    rw [h5]
  have ha : ∀ key, addProperty st v key = addProperty st w key := by
    intro key
    unfold addProperty
    rw [h6, h7, t3.1]
  unfold visitVariable
  rw [hi, hk]
  simp only [ha]

theorem forEachVariable_sameUpToFlagForm (vs ws : List Variable) (st : SchemaState)
    (h : sameVariablesUpToFlagForm vs ws = true) :
    forEachVariable vs st = forEachVariable ws st := by
  induction vs generalizing ws st with
  | nil =>
    cases ws with
    | nil => rfl
    | cons w ws => simp [sameVariablesUpToFlagForm] at h
  | cons v vs ih =>
    cases ws with
    | nil => simp [sameVariablesUpToFlagForm] at h
    | cons w ws =>
      simp only [sameVariablesUpToFlagForm, Bool.and_eq_true] at h
      simp only [forEachVariable, visitVariable_sameUpToFlagForm st v w h.1]
      cases visitVariable st w with
      | none => rfl
      | some st1 => exact ih ws st1 h.2

/-! ## Name derivation -/

theorem startsWith_mcp_after_first_rule (rest : List Char) :
    startsWith ⟨"tasker_".data ++ rest⟩ "mcp" = false := by
  rfl

theorem replaceLeading_mcp_underscore (t : String) (h : startsWith t "mcp_" = true) :
    replaceLeading "mcp_" "tasker_" t = ⟨"tasker_".data ++ t.data.drop 4⟩ := by
  unfold replaceLeading
  rw [if_pos h]
  rfl

theorem toolNameOfString_eq_spec (s : String) : toolNameOfString s = toolNameSpec s := by
  unfold toolNameOfString toolNameSpec
  simp only []
  generalize replaceSpaces (toLowerCase s) = t
  by_cases h : startsWith t "mcp_" = true
  · rw [replaceLeading_mcp_underscore t h, if_pos h]
    unfold replaceLeading
    rw [startsWith_mcp_after_first_rule]
    simp
  · have h1 : replaceLeading "mcp_" "tasker_" t = t := by
      unfold replaceLeading
      rw [if_neg h]
    rw [h1, if_neg h]
    unfold replaceLeading
    rfl

/-- Claim C1: for a task list whose described tasks are well typed (the name is
a string, the current value and the name of every variable are strings or
missing), `convertXmlToJsonTools` returns a list with exactly one descriptor for
every task with a truthy (non-empty) description, in document order, and the
descriptor of a task holds the task name, `taskNameToToolName` of it,
`generateDescription` of the task and `extractInputSchema` of the task; the
length of the list is the number of described tasks; a single task object gives
the same result as the one-element list. -/
theorem convertXmlToJsonTools_one_descriptor_per_described_task (tasks : List Task)
    (h : ∀ task ∈ tasks, task.pc.truthy = true → task.wellTyped = true) :
    ∃ tools, convertXmlToJsonTools ⟨some (.list tasks)⟩ = some tools ∧
      List.Forall₂
        (fun task descriptor =>
          descriptor.tasker_name = task.nme ∧
          taskNameToToolName task.nme = some descriptor.name ∧
          descriptor.description = generateDescription task ∧
          extractInputSchema task = some descriptor.inputSchema)
        (tasks.filter (fun task => task.pc.truthy)) tools ∧
      tools.length = (tasks.filter (fun task => task.pc.truthy)).length ∧
      ∀ task : Task, convertXmlToJsonTools ⟨some (.single task)⟩ =
        convertXmlToJsonTools ⟨some (.list [task])⟩ := by
  obtain ⟨added, h1, h2⟩ := taskLoop_described tasks []
    (fun task ht hp => toolDescription_typed task (h task ht hp))
  have h3 : List.Forall₂
        (fun task descriptor =>
          descriptor.tasker_name = task.nme ∧
          taskNameToToolName task.nme = some descriptor.name ∧
          descriptor.description = generateDescription task ∧
          extractInputSchema task = some descriptor.inputSchema)
        (tasks.filter (fun task => task.pc.truthy)) added :=
    h2.imp (fun task descriptor hd => toolDescription_fields task descriptor hd)
  refine ⟨added, ?_, h3, h3.length_eq.symm, fun task => rfl⟩
  simpa [convertXmlToJsonTools, normalizeTasks] using h1

/-- Witness for C1: a document with a described task and a task without
description. -/
theorem convertXmlToJsonTools_one_descriptor_per_described_task_witness :
    (∀ task ∈ [({ nme := .string "MCP Toggle WiFi", pc := .string "Toggles WiFi" } : Task),
               { nme := .string "Simple Task" }],
        task.pc.truthy = true → task.wellTyped = true) ∧
    ∃ tools, convertXmlToJsonTools
        ⟨some (.list [{ nme := .string "MCP Toggle WiFi", pc := .string "Toggles WiFi" },
                      { nme := .string "Simple Task" }])⟩ = some tools ∧
      List.Forall₂
        (fun task descriptor =>
          descriptor.tasker_name = task.nme ∧
          taskNameToToolName task.nme = some descriptor.name ∧
          descriptor.description = generateDescription task ∧
          extractInputSchema task = some descriptor.inputSchema)
        ([({ nme := .string "MCP Toggle WiFi", pc := .string "Toggles WiFi" } : Task),
          { nme := .string "Simple Task" }].filter (fun task => task.pc.truthy)) tools ∧
      tools.length =
        ([({ nme := .string "MCP Toggle WiFi", pc := .string "Toggles WiFi" } : Task),
          { nme := .string "Simple Task" }].filter (fun task => task.pc.truthy)).length ∧
      ∀ task : Task, convertXmlToJsonTools ⟨some (.single task)⟩ =
        convertXmlToJsonTools ⟨some (.list [task])⟩ :=
  ⟨by decide,
    convertXmlToJsonTools_one_descriptor_per_described_task
      [{ nme := .string "MCP Toggle WiFi", pc := .string "Toggles WiFi" },
       { nme := .string "Simple Task" }] (by decide)⟩

/-- Claim C2: on a string, `taskNameToToolName` is the function of the
specification (lower case, underscores for spaces, then `tasker_` for a leading
`mcp_`, else `tasker` for a leading `mcp`, else nothing changed); the second
replacement never fires after the first one did; `MCP Toggle WiFi` gives
`tasker_toggle_wifi` and `Simple Task` gives `simple_task`. -/
theorem taskNameToToolName_prefix_rules (s : String) :
    taskNameToToolName (.string s) = some (toolNameSpec s) ∧
    (startsWith (replaceSpaces (toLowerCase s)) "mcp_" &&
      startsWith (replaceLeading "mcp_" "tasker_" (replaceSpaces (toLowerCase s))) "mcp")
        = false ∧
    taskNameToToolName (.string "MCP Toggle WiFi") = some "tasker_toggle_wifi" ∧
    taskNameToToolName (.string "Simple Task") = some "simple_task" := by
  refine ⟨?_, ?_, by decide, by decide⟩
  · simp [taskNameToToolName, toolNameOfString_eq_spec]
  · generalize replaceSpaces (toLowerCase s) = t
    by_cases h : startsWith t "mcp_" = true
    · rw [replaceLeading_mcp_underscore t h, startsWith_mcp_after_first_rule]
      simp
    · simp [h]

/-- Counterexample to C3 as stated: the tool name of `MCPanel View` is not
`tasker_anel_view`. -/
theorem taskNameToToolName_mcpanel_view_ne :
    taskNameToToolName (.string "MCPanel View") ≠ some "tasker_anel_view" := by
  decide

/-- Claim C3, amended: the tool name of `MCPanel View` is `taskeranel_view`, the
leading `mcp` being replaced by `tasker` without an underscore. -/
theorem taskNameToToolName_mcpanel_view :
    taskNameToToolName (.string "MCPanel View") = some "taskeranel_view" := by
  decide

/-- Counterexample to C4 as stated: a task whose description is present and
holds the empty string is excluded, the run returns an empty list. -/
theorem convertXmlToJsonTools_empty_description_excluded :
    convertXmlToJsonTools
      ⟨some (.single { nme := .string "Simple Task", pc := .string "" })⟩ = some [] := by
  decide

/-- Claim C4, amended: the loop excludes a task if and only if its description
is falsy, which is the case when it is missing, the empty string or the boolean
false; otherwise the loop goes on with the descriptor of the task pushed (or
fails when its derivation throws).  A document with one task returns the empty
list exactly when the description of the task is falsy. -/
theorem taskLoop_excludes_iff_description_falsy (task : Task) (rest : List (Option Task))
    (tools : List ToolDescriptor) :
    (task.pc.truthy = false ↔
      task.pc = .undefined ∨ task.pc = .string "" ∨ task.pc = .boolean false) ∧
    taskLoop (some task :: rest) tools =
      (if task.pc.truthy then
        (toolDescription task).bind (fun descriptor => taskLoop rest (tools ++ [descriptor]))
      else taskLoop rest tools) ∧
    (convertXmlToJsonTools ⟨some (.single task)⟩ = some [] ↔ task.pc.truthy = false) := by
  refine ⟨?_, ?_, ?_⟩
  · cases hp : task.pc with
    | undefined => simp [JsValue.truthy]
    | boolean b => cases b <;> simp [JsValue.truthy]
    | string s => simp [JsValue.truthy]
    | object t => simp [JsValue.truthy]
  · cases hp : task.pc.truthy with
    | false => simp [taskLoop, hp]
    | true =>
      cases hd : toolDescription task <;> simp [taskLoop, hp, hd]
  · cases hp : task.pc.truthy with
    | false => simp [convertXmlToJsonTools, normalizeTasks, taskLoop, hp]
    | true =>
      cases hd : toolDescription task <;>
        simp [convertXmlToJsonTools, normalizeTasks, taskLoop, hp, hd]

/-- Counterexample to C6 as stated: for the variable named `%Volume` no schema
with the key `volume` and the required list `volume` is returned. -/
theorem extractInputSchema_volume_not_lower_case :
    ¬ ∃ schema, extractInputSchema
        { ProfileVariable := .single
            { pvci := .string "false", immutable := .string "true", pvv := .string "",
              pvn := .string "%Volume", pvt := .string "n", clearout := .string "true" } }
          = some schema ∧
        schema.properties.get? "volume" = some { type := "number" } ∧
        schema.required = some ["volume"] := by
  rintro ⟨schema, h1, h2, -⟩
  have h3 : extractInputSchema
        { ProfileVariable := .single
            { pvci := .string "false", immutable := .string "true", pvv := .string "",
              pvn := .string "%Volume", pvt := .string "n", clearout := .string "true" } }
      = some { properties := [("Volume", { type := "number" })],
               required := some ["Volume"] } := by
    decide
  rw [h3] at h1
  have h4 := Option.some.inj h1
  subst h4
  revert h2
  decide

/-- Claim C6, amended: for the variable named `%Volume` with type `n` and
clearout `true` the schema holds the key `Volume`, in the case of the name,
mapped to the type `number`, and the required list is `Volume`. -/
theorem extractInputSchema_volume :
    extractInputSchema
        { ProfileVariable := .single
            { pvci := .string "false", immutable := .string "true", pvv := .string "",
              pvn := .string "%Volume", pvt := .string "n", clearout := .string "true" } }
      = some { type := "object"
               properties := [("Volume", { type := "number", description := none, enum := none })]
               required := some ["Volume"] } := by
  decide

/-- Claim C8: for a task whose variables are well typed, the required list is
the sequence, in variable order, of the keys of the variables that pass the
inclusion test and whose clearout flag is the string or boolean true; the
schema has a required member exactly when that sequence is not empty, and
never an empty one. -/
theorem extractInputSchema_required (task : Task)
    (h : ∀ pvar ∈ profileVariables task, pvar.wellTyped = true) :
    ∃ schema, extractInputSchema task = some schema ∧
      schema.required =
        (if ((profileVariables task).filter (fun pvar =>
              decide (includeTest pvar = some true) &&
                (decide (pvar.clearout = .string "true") ||
                  decide (pvar.clearout = .boolean true)))).filterMap propertyKey = []
          then none
          else some (((profileVariables task).filter (fun pvar =>
              decide (includeTest pvar = some true) &&
                (decide (pvar.clearout = .string "true") ||
                  decide (pvar.clearout = .boolean true)))).filterMap propertyKey)) ∧
      schema.required ≠ some [] := by
  refine ⟨_, extractInputSchema_typed task h, ?_, ?_⟩
  · rw [filter_included_typed _ _ h,
      filterMap_propertyKey_typed _ (fun pvar hp => h pvar (List.mem_of_mem_filter hp))]
    simp only [finishSchema, required_foldl_visitTyped, List.nil_append]
    generalize hl : List.map Variable.derivedKey
      (List.filter (fun pvar => pvar.qualifies && pvar.clearout.isTrueFlag)
        (profileVariables task)) = l
    have hl2 : List.map Variable.derivedKey
      (List.filter (fun pvar => pvar.qualifies &&
        (decide (pvar.clearout = .string "true") || decide (pvar.clearout = .boolean true)))
        (profileVariables task)) = l := hl
    rw [hl2]
    cases l <;> simp
  · simp only [finishSchema]
    split
    · rename_i hpos
      intro h1
      rw [Option.some.inj h1] at hpos
      simp at hpos
    · simp

/-- Witness for C8: two of three qualifying variables are required. -/
theorem extractInputSchema_required_witness :
    (∀ pvar ∈ profileVariables sampleTaskRequired, pvar.wellTyped = true) ∧
    ∃ schema, extractInputSchema sampleTaskRequired = some schema ∧
      schema.required =
        (if ((profileVariables sampleTaskRequired).filter (fun pvar =>
              decide (includeTest pvar = some true) &&
                (decide (pvar.clearout = .string "true") ||
                  decide (pvar.clearout = .boolean true)))).filterMap propertyKey = []
          then none
          else some (((profileVariables sampleTaskRequired).filter (fun pvar =>
              decide (includeTest pvar = some true) &&
                (decide (pvar.clearout = .string "true") ||
                  decide (pvar.clearout = .boolean true)))).filterMap propertyKey)) ∧
      schema.required ≠ some [] :=
  ⟨by decide, extractInputSchema_required sampleTaskRequired (by decide)⟩

/-- Claim C9: a task none of whose variables passes the inclusion test gets the
schema with type `object`, no property and no required member; this is so
when the variable collection is absent and when it is an empty list. -/
theorem extractInputSchema_no_qualifying (task : Task)
    (h : ∀ pvar ∈ profileVariables task, includeTest pvar = some false) :
    extractInputSchema task =
      some { type := "object", properties := [], required := none } ∧
    extractInputSchema { task with ProfileVariable := .absent } =
      some { type := "object", properties := [], required := none } ∧
    extractInputSchema { task with ProfileVariable := .list [] } =
      some { type := "object", properties := [], required := none } := by
  refine ⟨?_, rfl, rfl⟩
  rw [extractInputSchema_eq, forEachVariable_none_included _ _ h]
  rfl

/-- Witness for C9: a task with three variables that all fail the test. -/
theorem extractInputSchema_no_qualifying_witness :
    (∀ pvar ∈ profileVariables sampleTaskNoneIncluded, includeTest pvar = some false) ∧
    extractInputSchema sampleTaskNoneIncluded =
      some { type := "object", properties := [], required := none } ∧
    extractInputSchema { sampleTaskNoneIncluded with ProfileVariable := .absent } =
      some { type := "object", properties := [], required := none } ∧
    extractInputSchema { sampleTaskNoneIncluded with ProfileVariable := .list [] } =
      some { type := "object", properties := [], required := none } :=
  ⟨by decide, extractInputSchema_no_qualifying sampleTaskNoneIncluded (by decide)⟩

/-- Claim C13, evaluated where it fails: a described task without a name makes
the whole run return the failure result, because `taskNameToToolName` throws on
the missing name; so does a described task with a variable whose current value
is not a string, because `extractInputSchema` throws on `pvv.trim`. -/
theorem convertXmlToJsonTools_fails_on_missing_name :
    taskNameToToolName .undefined = none ∧
    convertXmlToJsonTools ⟨some (.single { pc := .string "Toggles WiFi" })⟩ = none ∧
    convertXmlToJsonTools
      ⟨some (.list [{ nme := .string "Simple Task", pc := .string "A task" },
                    { pc := .string "Toggles WiFi" }])⟩ = none ∧
    extractInputSchema
      { ProfileVariable := .single
          { pvci := .string "false", immutable := .string "true",
            pvv := .object "[object Object]" } } = none := by
  decide

/-- Claim C15, evaluated where it fails: the tool names of `Simple Task` and of
`MCPanel View` are `simple_task` and `taskeranel_view`, which do not start with
`tasker_`. -/
theorem taskNameToToolName_without_tasker_underscore :
    taskNameToToolName (.string "Simple Task") = some "simple_task" ∧
    startsWith "simple_task" "tasker_" = false ∧
    taskNameToToolName (.string "MCPanel View") = some "taskeranel_view" ∧
    startsWith "taskeranel_view" "tasker_" = false := by
  decide

/-- Claim C18: the required list is not reconciled with the overwriting of
properties.  With two qualifying variables of the key `Mode`, the first
required and the second not, the key is in the required list and the entry is
the one of the second variable; when both are required the key is listed
twice. -/
theorem extractInputSchema_required_not_reconciled :
    extractInputSchema sampleTaskCollision =
      some { type := "object"
             properties := [("Mode", { type := "number", description := none, enum := none })]
             required := some ["Mode"] } ∧
    extractInputSchema sampleTaskBothRequired =
      some { type := "object"
             properties := [("Mode", { type := "number", description := none, enum := none })]
             required := some ["Mode", "Mode"] } := by
  decide

/-- Claim C19: for a parsed document whose root has no `Task` member the absent
collection becomes a one-element list holding the absent value, the loop fails
on reading its name whatever follows, and the run returns the failure result,
not an empty list. -/
theorem convertXmlToJsonTools_no_task_element :
    normalizeTasks .absent = [none] ∧
    (∀ (rest : List (Option Task)) (tools : List ToolDescriptor),
      taskLoop (none :: rest) tools = none) ∧
    convertXmlToJsonTools ⟨some .absent⟩ = none ∧
    convertXmlToJsonTools ⟨some .absent⟩ ≠ some [] := by
  refine ⟨rfl, fun _ _ => rfl, rfl, ?_⟩
  decide

/-- Claim C12: when `convertXmlToJsonTools` returns a list, its descriptors are
those of the tasks with a truthy description, in order, and the description of
each is the member `pc` of its task as it is; `generateDescription` returns
`pc` when it is truthy and `Tasker Tool:` followed by the task name otherwise,
and this second branch is not taken for a task that passed the filter. -/
theorem convertXmlToJsonTools_description_verbatim (tasks : JsCollection Task)
    (tools : List ToolDescriptor)
    (h : convertXmlToJsonTools ⟨some tasks⟩ = some tools) :
    List.Forall₂
      (fun task descriptor =>
        task.pc.truthy = true ∧ descriptor.description = task.pc ∧
          generateDescription task = task.pc)
      (((normalizeTasks tasks).filterMap id).filter (fun task => task.pc.truthy)) tools ∧
    (∀ task : Task, generateDescription task =
      if task.pc.truthy then task.pc
      else .string ("Tasker Tool: " ++ task.nme.toText)) ∧
    (∀ (name : String) (pvars : JsCollection Variable),
      generateDescription { nme := .string name, pc := .undefined, ProfileVariable := pvars } =
        .string ("Tasker Tool: " ++ name)) := by
  refine ⟨?_, fun task => rfl, fun name pvars => rfl⟩
  obtain ⟨added, h1, h2⟩ := taskLoop_result (normalizeTasks tasks) [] tools h
  simp only [List.nil_append] at h1
  subst h1
  have hmem : ∀ task ∈ ((normalizeTasks tasks).filterMap id).filter (fun task => task.pc.truthy),
      task.pc.truthy = true := fun task ht => (List.mem_filter.1 ht).2
  clear h
  revert hmem h2
  generalize ((normalizeTasks tasks).filterMap id).filter (fun task => task.pc.truthy) = l
  intro h2 hmem
  induction h2 with
  | nil => exact List.Forall₂.nil
  | cons hd htl ih =>
    rename_i task descriptor l1 l2
    have hp := hmem task (List.mem_cons_self _ _)
    have hf := (toolDescription_fields task descriptor hd).2.2.1
    refine List.Forall₂.cons ⟨hp, ?_, ?_⟩ (ih (fun t ht => hmem t (List.mem_cons_of_mem _ ht)))
    · rw [hf]
      simp [generateDescription, hp]
    · simp [generateDescription, hp]

/-- Witness for C12: a document with a described task and a task without
description. -/
theorem convertXmlToJsonTools_description_verbatim_witness :
    convertXmlToJsonTools ⟨some (.list [sampleTaskRequired, { nme := .string "Simple Task" }])⟩ =
      some [sampleDescriptor] ∧
    List.Forall₂
      (fun task descriptor =>
        task.pc.truthy = true ∧ descriptor.description = task.pc ∧
          generateDescription task = task.pc)
      (((normalizeTasks (.list [sampleTaskRequired, { nme := .string "Simple Task" }])).filterMap
          id).filter (fun task => task.pc.truthy))
      [sampleDescriptor] ∧
    (∀ task : Task, generateDescription task =
      if task.pc.truthy then task.pc
      else .string ("Tasker Tool: " ++ task.nme.toText)) ∧
    (∀ (name : String) (pvars : JsCollection Variable),
      generateDescription { nme := .string name, pc := .undefined, ProfileVariable := pvars } =
        .string ("Tasker Tool: " ++ name)) :=
  ⟨by decide,
    convertXmlToJsonTools_description_verbatim
      (.list [sampleTaskRequired, { nme := .string "Simple Task" }]) [sampleDescriptor]
      (by decide)⟩

/-- Claim C14: two tasks whose variables differ only in the form, string or
native boolean of the same truth value, of the flags `pvci`, `immutable` and
`clearout` get the same result of `extractInputSchema`. -/
theorem extractInputSchema_flag_form_irrelevant (task other : Task)
    (h : task.sameUpToFlagForm other = true) :
    extractInputSchema task = extractInputSchema other := by
  unfold Task.sameUpToFlagForm at h
  unfold extractInputSchema
  cases h1 : task.ProfileVariable with
  | absent =>
    cases h2 : other.ProfileVariable with
    | absent => rfl
    | single w => simp [h1, h2] at h
    | list ws => simp [h1, h2] at h
  | single v =>
    cases h2 : other.ProfileVariable with
    | absent => simp [h1, h2] at h
    | single w =>
      simp only [h1, h2] at h
      simp only [forEachVariable, visitVariable_sameUpToFlagForm _ v w h]
    | list ws => simp [h1, h2] at h
  | list vs =>
    cases h2 : other.ProfileVariable with
    | absent => simp [h1, h2] at h
    | single w => simp [h1, h2] at h
    | list ws =>
      simp only [h1, h2] at h
      simp only [forEachVariable_sameUpToFlagForm vs ws _ h]

/-- Witness for C14: the flags of the sample task in the other form. -/
theorem extractInputSchema_flag_form_irrelevant_witness :
    sampleTaskRequired.sameUpToFlagForm
      { ProfileVariable := .list
          [{ pvci := .boolean false, immutable := .boolean true, pvn := .string "%Volume",
             pvt := .string "n", clearout := .boolean true },
           { pvci := .string "false", immutable := .boolean true, pvn := .string "%Stream",
             clearout := .boolean false },
           { pvci := .string "false", immutable := .string "true", pvv := .string "",
             pvn := .string "%Mode", pvt := .string "onoff", clearout := .string "true" }] }
      = true ∧
    extractInputSchema sampleTaskRequired =
      extractInputSchema
        { ProfileVariable := .list
            [{ pvci := .boolean false, immutable := .boolean true, pvn := .string "%Volume",
               pvt := .string "n", clearout := .boolean true },
             { pvci := .string "false", immutable := .boolean true, pvn := .string "%Stream",
               clearout := .boolean false },
             { pvci := .string "false", immutable := .string "true", pvv := .string "",
               pvn := .string "%Mode", pvt := .string "onoff", clearout := .string "true" }] } :=
  ⟨by decide, extractInputSchema_flag_form_irrelevant _ _ (by decide)⟩

end XmlToTools
